import Mathlib

/-!
Verification of the reverse-proxy / static-host server (`server.js`) and
the browser-side `ApiService` session logic of this repository.

Paths, header names and header values are modelled as `List Char` (the
sequence of characters of the corresponding JavaScript string), so that
string operations of the source (`includes`, anchored `replace`,
`startsWith`-style mount matching, `endsWith`-style extension matching)
become explicit recursive functions that the proofs can reason about.
-/

/-- Character-list prefix test: `listIsPrefixOf p s` is `true` iff `p` is a
prefix of `s`. This models JavaScript's anchored matching (`^...` in a
regex, `String.prototype.startsWith`). -/
def listIsPrefixOf : List Char → List Char → Bool
  | [], _ => true
  | _ :: _, [] => false
  | a :: as, b :: bs => a == b && listIsPrefixOf as bs

/-- Substring containment over character lists; models JavaScript
`String.prototype.includes`. -/
def includesSub (pat : List Char) : List Char → Bool
  | [] => listIsPrefixOf pat []
  | c :: rest => listIsPrefixOf pat (c :: rest) || includesSub pat rest

/-- Suffix test over character lists; models a `...$`-anchored regex match
or `String.prototype.endsWith`. -/
def endsWithL (pat s : List Char) : Bool :=
  listIsPrefixOf pat.reverse s.reverse

/-- The fixed source pattern of the anchored rewrite regex
`/^\/management\/platformmanager/` in `server.js`. -/
def mgmtPlatform : List Char := "/management/platformmanager".data

/-- The replacement string `'/platformmanager'` of the rewrite in
`server.js`. -/
def platformPre : List Char := "/platformmanager".data

/-- The designated internal path segment `'/platformmanager/'` tested by
`path.includes(...)` in `server.js`. -/
def platformSeg : List Char := "/platformmanager/".data

/-- JavaScript `path.replace(/^\/management\/platformmanager/, '/platformmanager')`:
the regex is anchored at the start, so the replacement fires exactly when
the path begins with `/management/platformmanager`, and otherwise the path
is returned unchanged. -/
def replaceAnchoredMgmt (p : List Char) : List Char :=
  if listIsPrefixOf mgmtPlatform p then platformPre ++ p.drop mgmtPlatform.length else p

/-- The `pathRewrite` option of the proxy (`server.js` lines 39-47):
if the path contains `'/platformmanager/'` the anchored replacement is
applied, otherwise the path is returned unchanged. -/
def pathRewrite (p : List Char) : List Char :=
  if includesSub platformSeg p then replaceAnchoredMgmt p else p

/-- HTTP method of an inbound request (the server accepts the methods
listed in the CORS configuration, plus HEAD, which Express routes like
GET). -/
inductive Method
  | GET | POST | PUT | DELETE | PATCH | OPTIONS | HEAD
deriving DecidableEq

/-- An inbound HTTP request as the server sees it: method, path
(`req.path` / `req.url`), and the two headers the proxy logic reads.
`some []` models a header that is present with an empty value (Node
delivers it as the empty string), `none` a header that is absent. -/
structure InboundRequest where
  method : Method
  path : List Char
  authorization : Option (List Char)
  origin : Option (List Char)
deriving DecidableEq

/-- Lookup of a header (or JSON field) by name in an association list. -/
def lookupHeader : List (List Char × List Char) → List Char → Option (List Char)
  | [], _ => none
  | (k, v) :: t, key => if k = key then some v else lookupHeader t key

/-- Overwriting assignment of a header value on a header map; models
JavaScript `headers[name] = value` and `setHeader(name, value)`. -/
def setHeader (hs : List (List Char × List Char)) (k v : List Char) :
    List (List Char × List Char) :=
  (k, v) :: hs.filter (fun e => !(e.1 == k))

/-- Body of a response produced by the server: a JSON object (from
`res.json`), the contents of a file (from `res.sendFile` /
`express.static`), the empty body of a 204 preflight answer, or the
Express default not-found page. -/
inductive Body
  | json (fields : List (List Char × List Char))
  | fileContents (filePath : List Char)
  | empty
  | expressDefault
deriving DecidableEq

/-- A response relayed to the caller. -/
structure Response where
  status : Nat
  headers : List (List Char × List Char)
  body : Body
deriving DecidableEq

/-- Field lookup in a JSON response body; `none` when the body is not a
JSON object or lacks the field. -/
def jsonField (r : Response) (k : List Char) : Option (List Char) :=
  match r.body with
  | Body.json fs => lookupHeader fs k
  | _ => none

/-- The configured upstream target, `CAMPUS_CONTROLLER_URL` in
`server.js` (its default value; the environment override does not change
any of the properties proved below). -/
def CAMPUS_CONTROLLER_URL : List Char := "https://tsophiea.ddns.net".data

/-- The outbound request the proxy sends upstream: target origin,
forwarded path, and the Authorization header of the outbound request. -/
structure ProxyRequest where
  target : List Char
  path : List Char
  authorization : Option (List Char)
deriving DecidableEq

/-- The outbound request before the `onProxyReq` hook runs, per the
proxy library's default behaviour: the target is the configured upstream,
the path is the (rewritten) request path, and the inbound headers,
Authorization included, are copied onto the outbound request. -/
def mkProxyReq (req : InboundRequest) : ProxyRequest :=
  { target := CAMPUS_CONTROLLER_URL
    path := pathRewrite req.path
    authorization := req.authorization }

/-- The `onProxyReq` hook (`server.js` lines 49-56): when the inbound
`Authorization` header is truthy (present and non-empty, per JavaScript
`if (req.headers.authorization)`), it is re-asserted on the outbound
request with the same value. -/
def onProxyReq (req : InboundRequest) (pr : ProxyRequest) : ProxyRequest :=
  match req.authorization with
  | some a => if a.isEmpty then pr else { pr with authorization := some a }
  | none => pr

/-- The outbound request actually sent upstream for an inbound request. -/
def proxyRequest (req : InboundRequest) : ProxyRequest :=
  onProxyReq req (mkProxyReq req)

/-- JavaScript `a || b` on a possibly-absent string: the default is used
both when the value is absent and when it is the empty string (which is
falsy). -/
def jsOrDefault (v : Option (List Char)) (d : List Char) : List Char :=
  match v with
  | some s => if s.isEmpty then d else s
  | none => d

/-- The `onProxyRes` hook (`server.js` lines 58-62): sets
`Access-Control-Allow-Origin` to `req.headers.origin || '*'` and
`Access-Control-Allow-Credentials` to `'true'` on the relayed response
headers. -/
def onProxyRes (req : InboundRequest) (hs : List (List Char × List Char)) :
    List (List Char × List Char) :=
  setHeader (setHeader hs ("Access-Control-Allow-Origin".data) (jsOrDefault req.origin ("*".data)))
    ("Access-Control-Allow-Credentials".data) ("true".data)

/-- The `onError` hook (`server.js` lines 64-71): a transport-level
failure with message `msg` on a request whose url is `reqUrl` is answered
with status 500 and a JSON body with fields `error`, `message` and
`path`. -/
def onError (msg reqUrl : List Char) : Response :=
  { status := 500
    headers := []
    body := Body.json [("error".data, "Proxy Error".data),
                       ("message".data, msg),
                       ("path".data, reqUrl)] }

/-- Outcome of contacting the upstream with an outbound request: either a
response to relay, or a transport-level error (connection refused,
timeout, TLS failure) with its message. -/
inductive UpstreamResult
  | ok (resp : Response)
  | transportError (message : List Char)
deriving DecidableEq

/-- The proxy pipeline for one API request: build the outbound request
(default header copy, path rewrite, `onProxyReq`), contact the upstream,
and either relay its response through `onProxyRes` or answer with
`onError`. The error handler is a total function of the error and the
request: every transport failure is converted into a response, never
into a crash of the process. -/
def proxyHandle (up : ProxyRequest → UpstreamResult) (req : InboundRequest) : Response :=
  match up (proxyRequest req) with
  | UpstreamResult.ok r => { r with headers := onProxyRes req r.headers }
  | UpstreamResult.transportError m => onError m req.path

/-- The `/health` handler (`server.js` lines 26-28): `res.json` with
default status 200 and a JSON body with a `status` field and the current
timestamp. It reads neither the upstream nor the filesystem. -/
def healthResponse (now : List Char) : Response :=
  { status := 200
    headers := []
    body := Body.json [("status".data, "ok".data), ("timestamp".data, now)] }

/-- The no-cache headers set for HTML assets and for the SPA fallback
(`server.js` lines 86-89 and 103-105). -/
def noCacheHdrs : List (List Char × List Char) :=
  [("Cache-Control".data, "no-cache, no-store, must-revalidate".data),
   ("Pragma".data, "no-cache".data),
   ("Expires".data, "0".data)]

/-- The path of the SPA entry document, `path.join(buildPath, 'index.html')`. -/
def indexFile (buildPath : List Char) : List Char :=
  buildPath ++ ("/index.html".data)

/-- The catch-all `app.get('*')` handler (`server.js` lines 99-107): a
path starting with `'/api/'` gets status 404 with a JSON body whose only
field is `error`; every other path gets the SPA entry document with
no-cache headers and status 200 (`res.sendFile` default). -/
def fallback (buildPath p : List Char) : Response :=
  if listIsPrefixOf ("/api/".data) p then
    { status := 404, headers := [],
      body := Body.json [("error".data, "API endpoint not found".data)] }
  else
    { status := 200, headers := noCacheHdrs, body := Body.fileContents (indexFile buildPath) }

/-- Express mount matching for `app.use('/api', ...)`: the mount matches
the path `/api` itself and any path continuing with a `/` after the
mount point (it does not match e.g. `/apifoo`). This is what "starts with
the API prefix" means for the server's routing. -/
def apiMountMatch (p : List Char) : Bool :=
  p == ("/api".data) || listIsPrefixOf ("/api/".data) p

/-- True for the methods Express routes through `app.get` handlers and
`express.static` (GET, and HEAD which is served like GET). -/
def getLike : Method → Bool
  | Method.GET => true
  | Method.HEAD => true
  | _ => false

/-- The `.html` extension tested by `filePath.endsWith('.html')`. -/
def htmlExt : List Char := ".html".data

/-- The `.js` alternative of the regex `\.(js|css)$`. -/
def jsExt : List Char := ".js".data

/-- The `.css` alternative of the regex `\.(js|css)$`. -/
def cssExt : List Char := ".css".data

/-- The alternatives of the image/font regex
`\.(jpg|jpeg|png|gif|svg|ico|woff|woff2|ttf|eot)$`; the regex matches
exactly the paths ending in one of these dotted extensions. -/
def imageFontExts : List (List Char) :=
  [".jpg".data, ".jpeg".data, ".png".data, ".gif".data, ".svg".data,
   ".ico".data, ".woff".data, ".woff2".data, ".ttf".data, ".eot".data]

/-- The no-cache `Cache-Control` value for HTML entry documents. -/
def noStoreCC : List Char := "no-cache, no-store, must-revalidate".data

/-- The long-lived immutable `Cache-Control` value for JS/CSS assets. -/
def immutableCC : List Char := "public, max-age=31536000, immutable".data

/-- The medium-lived `Cache-Control` value for image/font assets. -/
def mediumCC : List Char := "public, max-age=604800".data

/-- The `Cache-Control` header name. -/
def ccKey : List Char := "Cache-Control".data

/-- The `setHeaders` callback of `express.static` (`server.js` lines
84-96): headers set on a served static asset, keyed by the extension of
its file path, with the branch order of the source. -/
def setHeadersFor (filePath : List Char) : List (List Char × List Char) :=
  if endsWithL htmlExt filePath then
    [(ccKey, noStoreCC), ("Pragma".data, "no-cache".data), ("Expires".data, "0".data)]
  else if endsWithL jsExt filePath || endsWithL cssExt filePath then
    [(ccKey, immutableCC)]
  else if imageFontExts.any (fun e => endsWithL e filePath) then
    [(ccKey, mediumCC)]
  else []

/-- The CORS middleware's answer to an OPTIONS request (`server.js`
lines 19-24): the `cors` package defaults `preflightContinue` to `false`
and `optionsSuccessStatus` to 204, so it ends every OPTIONS request with
an empty 204 and never calls `next()`; no later route, the proxy
included, sees the request. The preflight decoration headers are not
modelled, as no verified property mentions them. -/
def corsPreflight : Response :=
  { status := 204, headers := [], body := Body.empty }

/-- The full request router of `server.js`, in source middleware order:
the CORS middleware (which ends every OPTIONS request with an empty 204
and only decorates headers for other methods before passing them on),
the GET `/health` route, the `/api` proxy mount, `express.static`
(abstracted by the predicate `staticFiles` telling which request paths
resolve to a file under the build directory), and the catch-all
`app.get('*')` handler. Unmatched non-GET-like requests fall through to
the Express default not-found response. -/
def handle (up : ProxyRequest → UpstreamResult) (staticFiles : List Char → Bool)
    (buildPath now : List Char) (req : InboundRequest) : Response :=
  if req.method = Method.OPTIONS then corsPreflight
  else if getLike req.method && req.path == ("/health".data) then healthResponse now
  else if apiMountMatch req.path then proxyHandle up req
  else if getLike req.method && staticFiles req.path then
    { status := 200
      headers := setHeadersFor (buildPath ++ req.path)
      body := Body.fileContents (buildPath ++ req.path) }
  else if getLike req.method then fallback buildPath req.path
  else { status := 404, headers := [], body := Body.expressDefault }

/-- In-memory and persisted session state of the browser-side
`ApiService`: the two module-level token fields and the relevant part of
`localStorage`. -/
structure ApiState where
  accessToken : Option (List Char)
  refreshToken : Option (List Char)
  storage : List (List Char × List Char)
deriving DecidableEq

/-- Outcome of the token-revocation `fetch` inside `logout`: an HTTP
response with some status (2xx or not), or a thrown network error. -/
inductive FetchOutcome
  | response (status : Nat)
  | networkError (message : List Char)
deriving DecidableEq

/-- Result of the `logout()` promise: resolved with the final state, or
rejected with an error message. -/
inductive LogoutResult
  | resolved (st : ApiState)
  | rejected (message : List Char)
deriving DecidableEq

/-- JavaScript `localStorage.removeItem(key)`. -/
def removeItem (s : List (List Char × List Char)) (k : List Char) :
    List (List Char × List Char) :=
  s.filter (fun e => !(e.1 == k))

/-- The `isAuthenticated()` method: JavaScript `!!this.accessToken`,
which is `false` for a missing token and also for an empty-string
token. -/
def isAuthenticated (st : ApiState) : Bool :=
  match st.accessToken with
  | some t => !t.isEmpty
  | none => false

/-- The `ApiService.logout()` method (`part_005`, both identical
variants): when an access token is held, the revocation `fetch` is
awaited inside a `try` whose `catch` only logs, its response is never
inspected; afterwards, unconditionally, both token fields are cleared
and the three persisted entries are removed, and the promise resolves. -/
def logout (st : ApiState) (outcome : FetchOutcome) : LogoutResult :=
  let afterRevoke : ApiState :=
    match st.accessToken with
    | some _ =>
      match outcome with
      | FetchOutcome.response _ => st
      | FetchOutcome.networkError _ => st
    | none => st
  LogoutResult.resolved
    { accessToken := none
      refreshToken := none
      storage := removeItem (removeItem (removeItem afterRevoke.storage
          ("access_token".data)) ("refresh_token".data)) ("admin_role".data) }

/-- A sample upstream response used by concrete witnesses. -/
def upstreamOkResp : Response :=
  { status := 200
    headers := [("Content-Type".data, "application/json".data)]
    body := Body.json [("id".data, "1".data)] }

/-- An upstream that answers every outbound request. -/
def upOk : ProxyRequest → UpstreamResult :=
  fun _ => UpstreamResult.ok upstreamOkResp

/-- An unreachable upstream: every contact fails at the transport level. -/
def upDown : ProxyRequest → UpstreamResult :=
  fun _ => UpstreamResult.transportError ("connect ECONNREFUSED 127.0.0.1:443".data)

/-- A build directory with no matching static asset for any path. -/
def noStatic : List Char → Bool := fun _ => false

/-- A build directory in which every path resolves to a file. -/
def allStatic : List Char → Bool := fun _ => true

/-- A concrete build directory path. -/
def bp0 : List Char := "/app/build".data

/-- A second, different build directory path. -/
def bp1 : List Char := "/srv/build".data

/-- A concrete timestamp. -/
def now0 : List Char := "2026-10-12T00:00:00.000Z".data

/-- A concrete GET request to the liveness path. -/
def reqHealth : InboundRequest :=
  { method := Method.GET, path := "/health".data, authorization := none, origin := none }

/-- A concrete API request carrying an Authorization header. -/
def reqApi : InboundRequest :=
  { method := Method.GET
    path := "/api/management/v1/aps".data
    authorization := some ("Bearer abc123".data)
    origin := some ("http://localhost:5173".data) }

/-- A concrete OPTIONS (preflight) API request carrying an Authorization
header. -/
def reqOptApi : InboundRequest :=
  { method := Method.OPTIONS
    path := "/api/management/v1/aps".data
    authorization := some ("Bearer abc123".data)
    origin := some ("http://localhost:5173".data) }

/-- A concrete API request whose Origin header is present but empty. -/
def reqEmptyOrigin : InboundRequest :=
  { method := Method.GET
    path := "/api/management/v1/aps".data
    authorization := none
    origin := some [] }

/-- A concrete client-routed SPA path. -/
def reqSpaRoute : InboundRequest :=
  { method := Method.GET, path := "/dashboard".data, authorization := none, origin := none }

lemma listIsPrefixOf_append (a r : List Char) : listIsPrefixOf a (a ++ r) = true := by
  induction a with
  | nil => rfl
  | cons x xs ih => simp [listIsPrefixOf, ih]

lemma listIsPrefixOf_decomp (a : List Char) :
    ∀ p : List Char, listIsPrefixOf a p = true → p = a ++ p.drop a.length := by
  induction a with
  | nil => intro p _; simp
  | cons x xs ih =>
    intro p h
    cases p with
    | nil => simp [listIsPrefixOf] at h
    | cons y ys =>
      simp only [listIsPrefixOf, Bool.and_eq_true, beq_iff_eq] at h
      obtain ⟨hxy, hrest⟩ := h
      have := ih ys hrest
      simp [hxy, List.cons_append, List.drop_succ_cons]
      exact this

lemma mgmt_not_prefix_of_rewritten (rest : List Char) :
    listIsPrefixOf mgmtPlatform (platformPre ++ rest) = false := by
  have e1 : mgmtPlatform = '/' :: 'm' :: ("anagement/platformmanager".data) := rfl
  have e2 : platformPre = '/' :: 'p' :: ("latformmanager".data) := rfl
  have hm : (('m' : Char) == 'p') = false := by decide
  rw [e1, e2]
  simp [listIsPrefixOf, List.cons_append, hm]

/-- C1: the proxy's path-rewrite rule is exactly the documented one. First,
a path that begins with `/management/platformmanager` and contains the
segment `/platformmanager/` is rewritten by dropping the leading
`/management` component (mapping the leading `/management/platformmanager`
to `/platformmanager`); second, a path that does not contain the segment
`/platformmanager/` is returned unchanged; third, no other variant of
rewrite ever happens: every output is either the input itself or the
input with its leading `/management/platformmanager` replaced by
`/platformmanager`. -/
theorem c1_pathRewrite_exact_rule :
    (∀ rest : List Char, includesSub platformSeg (mgmtPlatform ++ rest) = true →
        pathRewrite (mgmtPlatform ++ rest) = platformPre ++ rest)
    ∧ (∀ p : List Char, includesSub platformSeg p = false → pathRewrite p = p)
    ∧ (∀ p : List Char, pathRewrite p = p ∨
        ∃ rest : List Char, p = mgmtPlatform ++ rest ∧ pathRewrite p = platformPre ++ rest) := by
  refine ⟨?_, ?_, ?_⟩
  · intro rest h
    simp only [pathRewrite, h, if_true, replaceAnchoredMgmt,
      listIsPrefixOf_append, if_true, List.drop_left]
  · intro p h
    simp [pathRewrite, h]
  · intro p
    by_cases hinc : includesSub platformSeg p = true
    · by_cases hpre : listIsPrefixOf mgmtPlatform p = true
      · right
        refine ⟨p.drop mgmtPlatform.length, listIsPrefixOf_decomp mgmtPlatform p hpre, ?_⟩
        simp [pathRewrite, hinc, replaceAnchoredMgmt, hpre]
      · left
        simp [pathRewrite, hinc, replaceAnchoredMgmt, hpre]
    · left
      simp [pathRewrite, hinc]

/-- Witness for C1: the rewrite and the no-op branch evaluated at concrete
paths. -/
theorem c1_pathRewrite_exact_rule_witness :
    pathRewrite (mgmtPlatform ++ ("/v1/aps".data)) = platformPre ++ ("/v1/aps".data)
    ∧ pathRewrite ("/api/v1/aps".data) = "/api/v1/aps".data :=
  ⟨c1_pathRewrite_exact_rule.1 ("/v1/aps".data) (by decide),
   c1_pathRewrite_exact_rule.2.1 ("/api/v1/aps".data) (by decide)⟩

/-- C10: the path-rewrite function is idempotent: rewriting a second time
changes nothing, because a rewritten path starts with `/platformmanager`
and can no longer match the anchored `/management/platformmanager`
pattern. -/
theorem c10_pathRewrite_idempotent (p : List Char) :
    pathRewrite (pathRewrite p) = pathRewrite p := by
  by_cases hinc : includesSub platformSeg p = true
  · by_cases hpre : listIsPrefixOf mgmtPlatform p = true
    · have hq : pathRewrite p = platformPre ++ p.drop mgmtPlatform.length := by
        simp [pathRewrite, hinc, replaceAnchoredMgmt, hpre]
      rw [hq]
      by_cases hinc2 : includesSub platformSeg (platformPre ++ p.drop mgmtPlatform.length) = true
      · simp [pathRewrite, hinc2, replaceAnchoredMgmt, mgmt_not_prefix_of_rewritten]
      · simp [pathRewrite, hinc2]
    · have hq : pathRewrite p = p := by
        simp [pathRewrite, hinc, replaceAnchoredMgmt, hpre]
      rw [hq, hq]
  · have hq : pathRewrite p = p := by simp [pathRewrite, hinc]
    rw [hq, hq]

lemma lookup_filter_ne (hs : List (List Char × List Char)) (k key : List Char)
    (h : key ≠ k) :
    lookupHeader (hs.filter (fun e => !(e.1 == k))) key = lookupHeader hs key := by
  induction hs with
  | nil => rfl
  | cons e t ih =>
    obtain ⟨a, b⟩ := e
    by_cases he : a = k
    · have hk : ¬(k = key) := fun hh => h hh.symm
      simp [List.filter_cons, he, lookupHeader, hk, ih]
    · simp [List.filter_cons, he, lookupHeader, ih]

lemma lookup_setHeader_self (hs : List (List Char × List Char)) (k v : List Char) :
    lookupHeader (setHeader hs k v) k = some v := by
  simp [setHeader, lookupHeader]

lemma lookup_setHeader_other (hs : List (List Char × List Char)) (k v key : List Char)
    (h : key ≠ k) :
    lookupHeader (setHeader hs k v) key = lookupHeader hs key := by
  have hk : ¬(k = key) := fun hh => h hh.symm
  simp only [setHeader, lookupHeader, hk, if_false]
  exact lookup_filter_ne hs k key h

lemma apiMount_not_health (p : List Char) (h : apiMountMatch p = true) :
    (p == ("/health".data)) = false := by
  cases hb : p == ("/health".data) with
  | false => rfl
  | true =>
    have hp : p = "/health".data := eq_of_beq hb
    rw [hp] at h
    exact absurd h (by decide)

/-- C2 counterexample: an OPTIONS API-prefixed request carrying an
Authorization header satisfies the claim's premises, yet the CORS
middleware (whose `preflightContinue` defaults to `false`) ends it with
an empty 204 without calling `next()`, so it is never forwarded to the
upstream at all. -/
theorem c2_counterexample :
    apiMountMatch reqOptApi.path = true
    ∧ reqOptApi.authorization = some ("Bearer abc123".data)
    ∧ handle upOk noStatic bp0 now0 reqOptApi = corsPreflight
    ∧ handle upOk noStatic bp0 now0 reqOptApi ≠ proxyHandle upOk reqOptApi := by
  decide

/-- C2 (amended): every non-OPTIONS API-prefixed request is routed to
the proxy pipeline, the outbound request targets the configured
upstream, and when the inbound request carries an Authorization header
its value is carried on the outbound request unchanged, byte for byte;
OPTIONS requests are instead answered 204 by the CORS middleware without
being forwarded. -/
theorem c2_authorization_preserved
    (up : ProxyRequest → UpstreamResult) (sf : List Char → Bool)
    (bp now : List Char) (req : InboundRequest) (a : List Char)
    (hopt : req.method ≠ Method.OPTIONS)
    (hmount : apiMountMatch req.path = true)
    (hauth : req.authorization = some a) :
    handle up sf bp now req = proxyHandle up req
    ∧ (proxyRequest req).target = CAMPUS_CONTROLLER_URL
    ∧ (proxyRequest req).authorization = some a := by
  refine ⟨?_, ?_, ?_⟩
  · have hh := apiMount_not_health req.path hmount
    simp [handle, hopt, hh, hmount]
  · by_cases he : a.isEmpty <;> simp [proxyRequest, onProxyReq, mkProxyReq, hauth, he]
  · by_cases he : a.isEmpty <;> simp [proxyRequest, onProxyReq, mkProxyReq, hauth, he]

/-- Witness for the amended C2 at a concrete GET request with a bearer
token. -/
theorem c2_authorization_preserved_witness :
    handle upOk noStatic bp0 now0 reqApi = proxyHandle upOk reqApi
    ∧ (proxyRequest reqApi).target = CAMPUS_CONTROLLER_URL
    ∧ (proxyRequest reqApi).authorization = some ("Bearer abc123".data) :=
  c2_authorization_preserved upOk noStatic bp0 now0 reqApi ("Bearer abc123".data)
    (by decide) (by decide) rfl

/-- C3 counterexample: at an OPTIONS API-prefixed request with the
upstream unreachable, the CORS middleware answers an empty 204 without
contacting the upstream, so no 5xx status and no structured JSON error
body is produced, contrary to the claim's quantification over every
API-prefixed request. -/
theorem c3_counterexample :
    apiMountMatch reqOptApi.path = true
    ∧ upDown (proxyRequest reqOptApi) =
        UpstreamResult.transportError ("connect ECONNREFUSED 127.0.0.1:443".data)
    ∧ (handle upDown noStatic bp0 now0 reqOptApi).status = 204
    ∧ (handle upDown noStatic bp0 now0 reqOptApi).status / 100 ≠ 5
    ∧ jsonField (handle upDown noStatic bp0 now0 reqOptApi) ("error".data) = none := by
  decide

/-- C3 (amended): for a non-OPTIONS API-prefixed request, a
transport-level failure while contacting the upstream is answered with
status 500 (a 5xx status) and a JSON body carrying an `error` kind, the
human-readable `message`, and the original request path; the handler is
a total function, so the failure is absorbed rather than crashing the
process. OPTIONS requests are answered 204 by the CORS middleware
without the upstream being contacted. -/
theorem c3_upstream_failure_structured_5xx
    (up : ProxyRequest → UpstreamResult) (sf : List Char → Bool)
    (bp now : List Char) (req : InboundRequest) (msg : List Char)
    (hopt : req.method ≠ Method.OPTIONS)
    (hmount : apiMountMatch req.path = true)
    (herr : up (proxyRequest req) = UpstreamResult.transportError msg) :
    (handle up sf bp now req).status = 500
    ∧ (handle up sf bp now req).status / 100 = 5
    ∧ jsonField (handle up sf bp now req) ("error".data) = some ("Proxy Error".data)
    ∧ jsonField (handle up sf bp now req) ("message".data) = some msg
    ∧ jsonField (handle up sf bp now req) ("path".data) = some req.path := by
  have hh := apiMount_not_health req.path hmount
  have hroute : handle up sf bp now req = onError msg req.path := by
    simp [handle, hopt, hh, hmount, proxyHandle, herr]
  rw [hroute]
  have h1 : ¬(("error".data : List Char) = ("message".data)) := by decide
  have h2 : ¬(("error".data : List Char) = ("path".data)) := by decide
  have h3 : ¬(("message".data : List Char) = ("path".data)) := by decide
  refine ⟨rfl, ?_, ?_, ?_, ?_⟩
  · norm_num [onError]
  · simp [onError, jsonField, lookupHeader]
  · simp [onError, jsonField, lookupHeader, h1]
  · simp [onError, jsonField, lookupHeader, h2, h3]

/-- Witness for the amended C3: an unreachable upstream at a concrete
GET request. -/
theorem c3_upstream_failure_structured_5xx_witness :
    (handle upDown noStatic bp0 now0 reqApi).status = 500
    ∧ (handle upDown noStatic bp0 now0 reqApi).status / 100 = 5
    ∧ jsonField (handle upDown noStatic bp0 now0 reqApi) ("error".data) =
        some ("Proxy Error".data)
    ∧ jsonField (handle upDown noStatic bp0 now0 reqApi) ("message".data) =
        some ("connect ECONNREFUSED 127.0.0.1:443".data)
    ∧ jsonField (handle upDown noStatic bp0 now0 reqApi) ("path".data) =
        some ("/api/management/v1/aps".data) :=
  c3_upstream_failure_structured_5xx upDown noStatic bp0 now0 reqApi
    ("connect ECONNREFUSED 127.0.0.1:443".data) (by decide) (by decide) rfl

/-- C8: the liveness endpoint is independent of the upstream and of the
static file set (it touches neither), and always answers 200 with a JSON
body containing a `status` field and the current timestamp. -/
theorem c8_health_endpoint
    (up1 up2 : ProxyRequest → UpstreamResult) (sf1 sf2 : List Char → Bool)
    (bpa bpb now : List Char) (req : InboundRequest)
    (hm : req.method = Method.GET) (hp : req.path = "/health".data) :
    handle up1 sf1 bpa now req = handle up2 sf2 bpb now req
    ∧ (handle up1 sf1 bpa now req).status = 200
    ∧ jsonField (handle up1 sf1 bpa now req) ("status".data) = some ("ok".data)
    ∧ jsonField (handle up1 sf1 bpa now req) ("timestamp".data) = some now := by
  have hroute : ∀ (up : ProxyRequest → UpstreamResult) (sf : List Char → Bool)
      (bp : List Char), handle up sf bp now req = healthResponse now := by
    intro up sf bp
    simp [handle, hm, hp, getLike]
  rw [hroute up1 sf1 bpa, hroute up2 sf2 bpb]
  have hst : ¬(("status".data : List Char) = ("timestamp".data)) := by decide
  refine ⟨rfl, rfl, ?_, ?_⟩
  · simp [healthResponse, jsonField, lookupHeader]
  · simp [healthResponse, jsonField, lookupHeader, hst]

/-- Witness for C8: a dead upstream with no static files against a live
upstream with all static files give the same health answer. -/
theorem c8_health_endpoint_witness :
    handle upDown noStatic bp0 now0 reqHealth = handle upOk allStatic bp1 now0 reqHealth
    ∧ (handle upDown noStatic bp0 now0 reqHealth).status = 200
    ∧ jsonField (handle upDown noStatic bp0 now0 reqHealth) ("status".data) =
        some ("ok".data)
    ∧ jsonField (handle upDown noStatic bp0 now0 reqHealth) ("timestamp".data) =
        some now0 :=
  c8_health_endpoint upDown upOk noStatic allStatic bp0 bp1 now0 reqHealth rfl rfl

/-- C7 counterexample: a request whose Origin header is present but empty
gets `Access-Control-Allow-Origin: *` rather than its own (empty) Origin
value, because the source uses JavaScript `||`, for which the empty
string is falsy; so the wildcard is not used only "when the Origin header
is absent" as claimed. -/
theorem c7_counterexample :
    reqEmptyOrigin.origin = some []
    ∧ lookupHeader (onProxyRes reqEmptyOrigin []) ("Access-Control-Allow-Origin".data) =
        some ("*".data)
    ∧ ("*".data : List Char) ≠ [] := by decide

/-- C7 (amended): on every relayed response the proxy sets
`Access-Control-Allow-Origin` to the inbound Origin value when that
header is present and non-empty, to the wildcard `*` when it is absent
or empty, and always sets `Access-Control-Allow-Credentials: true`. -/
theorem c7_cors_headers_on_relay :
    (∀ (req : InboundRequest) (hs : List (List Char × List Char)) (o : List Char),
        req.origin = some o → o ≠ [] →
        lookupHeader (onProxyRes req hs) ("Access-Control-Allow-Origin".data) = some o)
    ∧ (∀ (req : InboundRequest) (hs : List (List Char × List Char)),
        req.origin = none ∨ req.origin = some [] →
        lookupHeader (onProxyRes req hs) ("Access-Control-Allow-Origin".data) =
          some ("*".data))
    ∧ (∀ (req : InboundRequest) (hs : List (List Char × List Char)),
        lookupHeader (onProxyRes req hs) ("Access-Control-Allow-Credentials".data) =
          some ("true".data)) := by
  have hne : ("Access-Control-Allow-Origin".data : List Char) ≠
      ("Access-Control-Allow-Credentials".data) := by decide
  refine ⟨?_, ?_, ?_⟩
  · intro req hs o ho hoe
    rw [onProxyRes, lookup_setHeader_other _ _ _ _ hne, lookup_setHeader_self]
    cases o with
    | nil => exact absurd rfl hoe
    | cons c cs => simp [jsOrDefault, ho, List.isEmpty]
  · intro req hs h
    rw [onProxyRes, lookup_setHeader_other _ _ _ _ hne, lookup_setHeader_self]
    rcases h with h | h <;> simp [jsOrDefault, h, List.isEmpty]
  · intro req hs
    rw [onProxyRes, lookup_setHeader_self]

/-- Witness for the amended C7 at a concrete request and at a concrete
request without an Origin header. -/
theorem c7_cors_headers_on_relay_witness :
    lookupHeader (onProxyRes reqApi []) ("Access-Control-Allow-Origin".data) =
      some ("http://localhost:5173".data)
    ∧ lookupHeader (onProxyRes reqHealth []) ("Access-Control-Allow-Origin".data) =
      some ("*".data)
    ∧ lookupHeader (onProxyRes reqApi []) ("Access-Control-Allow-Credentials".data) =
      some ("true".data) :=
  ⟨c7_cors_headers_on_relay.1 reqApi [] ("http://localhost:5173".data) rfl (by decide),
   c7_cors_headers_on_relay.2.1 reqHealth [] (Or.inl rfl),
   c7_cors_headers_on_relay.2.2 reqApi []⟩

/-- C4 counterexample: `GET /health` satisfies both premises of the claim
(its path does not start with the API prefix and it matches no static
asset), yet the server answers it with the liveness JSON, not with the
SPA entry document, because the `/health` route is registered before the
static middleware and the catch-all. -/
theorem c4_counterexample :
    reqHealth.method = Method.GET
    ∧ apiMountMatch reqHealth.path = false
    ∧ noStatic reqHealth.path = false
    ∧ (handle upOk noStatic bp0 now0 reqHealth).body ≠ Body.fileContents (indexFile bp0)
    ∧ (handle upOk noStatic bp0 now0 reqHealth).body =
        Body.json [("status".data, "ok".data), ("timestamp".data, now0)] := by
  decide

/-- C4 (amended): every GET request whose path does not match the API
mount, does not match a static asset, and is not the liveness path
`/health`, is answered with status 200 and the SPA entry document with
no-cache headers. -/
theorem c4_spa_fallback
    (up : ProxyRequest → UpstreamResult) (sf : List Char → Bool)
    (bp now : List Char) (req : InboundRequest)
    (hm : req.method = Method.GET)
    (hapi : apiMountMatch req.path = false)
    (hsf : sf req.path = false)
    (hh : req.path ≠ "/health".data) :
    handle up sf bp now req =
      { status := 200, headers := noCacheHdrs,
        body := Body.fileContents (indexFile bp) } := by
  have hb : (req.path == ("/health".data)) = false := by
    cases hbe : req.path == ("/health".data) with
    | false => rfl
    | true => exact absurd (eq_of_beq hbe) hh
  have hasl : listIsPrefixOf ("/api/".data) req.path = false := by
    have := hapi
    simp only [apiMountMatch, Bool.or_eq_false_iff] at this
    exact this.2
  simp [handle, hm, hb, hapi, hsf, getLike, fallback, hasl]

/-- Witness for the amended C4 at a concrete client-routed path. -/
theorem c4_spa_fallback_witness :
    handle upOk noStatic bp0 now0 reqSpaRoute =
      { status := 200, headers := noCacheHdrs,
        body := Body.fileContents (indexFile bp0) } :=
  c4_spa_fallback upOk noStatic bp0 now0 reqSpaRoute rfl (by decide) rfl (by decide)

/-- C5 counterexample: at a concrete API-prefixed path with no proxy
match, the catch-all handler does answer 404 with a JSON `error` field,
but the body has no `path` field, contradicting the claimed
`\x7berror, path\x7d` body. -/
theorem c5_counterexample :
    (fallback bp0 ("/api/v1/x".data)).status = 404
    ∧ jsonField (fallback bp0 ("/api/v1/x".data)) ("error".data) =
        some ("API endpoint not found".data)
    ∧ jsonField (fallback bp0 ("/api/v1/x".data)) ("path".data) = none := by
  decide

/-- C5 (amended): every API-prefixed path reaching the catch-all handler
is answered with status 404 and a JSON body containing an `error` field
(the request path is not included in the body), and never with the SPA
entry document. -/
theorem c5_api_404_no_spa (bp p : List Char)
    (h : listIsPrefixOf ("/api/".data) p = true) :
    (fallback bp p).status = 404
    ∧ jsonField (fallback bp p) ("error".data) = some ("API endpoint not found".data)
    ∧ jsonField (fallback bp p) ("path".data) = none
    ∧ (fallback bp p).body ≠ Body.fileContents (indexFile bp) := by
  have h2 : ¬(("error".data : List Char) = ("path".data)) := by decide
  refine ⟨?_, ?_, ?_, ?_⟩
  · simp [fallback, h]
  · simp [fallback, h, jsonField, lookupHeader]
  · simp [fallback, h, jsonField, lookupHeader, h2]
  · simp [fallback, h]

/-- Witness for the amended C5 at a concrete unmatched API path. -/
theorem c5_api_404_no_spa_witness :
    (fallback bp0 ("/api/unknown".data)).status = 404
    ∧ jsonField (fallback bp0 ("/api/unknown".data)) ("error".data) =
        some ("API endpoint not found".data)
    ∧ jsonField (fallback bp0 ("/api/unknown".data)) ("path".data) = none
    ∧ (fallback bp0 ("/api/unknown".data)).body ≠ Body.fileContents (indexFile bp0) :=
  c5_api_404_no_spa bp0 ("/api/unknown".data) (by decide)

lemma prefix_trans_len (a : List Char) :
    ∀ b s : List Char, listIsPrefixOf a s = true → listIsPrefixOf b s = true →
      a.length ≤ b.length → listIsPrefixOf a b = true := by
  induction a with
  | nil => intro b s _ _ _; rfl
  | cons x xs ih =>
    intro b s h1 h2 hl
    cases s with
    | nil => simp [listIsPrefixOf] at h1
    | cons y ys =>
      cases b with
      | nil => simp at hl
      | cons z zs =>
        simp only [listIsPrefixOf, Bool.and_eq_true, beq_iff_eq] at h1 h2 ⊢
        obtain ⟨hxy, hxs⟩ := h1
        obtain ⟨hzy, hzs⟩ := h2
        refine ⟨hxy.trans hzy.symm, ?_⟩
        exact ih zs ys hxs hzs (by simpa using hl)

lemma endsWith_excl (a b : List Char)
    (hab : listIsPrefixOf a.reverse b.reverse = false)
    (hba : listIsPrefixOf b.reverse a.reverse = false) :
    ∀ s : List Char, endsWithL b s = true → endsWithL a s = false := by
  intro s hb
  cases h : endsWithL a s with
  | false => rfl
  | true =>
    exfalso
    rw [endsWithL] at h hb
    cases Nat.le_total a.reverse.length b.reverse.length with
    | inl hle =>
      have := prefix_trans_len a.reverse b.reverse s.reverse h hb hle
      rw [this] at hab
      exact Bool.noConfusion hab
    | inr hle =>
      have := prefix_trans_len b.reverse a.reverse s.reverse hb h hle
      rw [this] at hba
      exact Bool.noConfusion hba

lemma mediumBranch (fp : List Char)
    (h1 : endsWithL htmlExt fp = false) (h2 : endsWithL jsExt fp = false)
    (h3 : endsWithL cssExt fp = false)
    (hm : (imageFontExts.any fun e => endsWithL e fp) = true) :
    lookupHeader (setHeadersFor fp) ccKey = some mediumCC := by
  simp [setHeadersFor, h1, h2, h3, hm, lookupHeader]

/-- C6: the cache-control policy of the static middleware. Paths ending
in `.html` get the no-cache directives; paths ending in `.js` or `.css`
get the long-lived immutable value `public, max-age=31536000, immutable`;
paths ending in one of the image/font extensions get the medium-lived
value `public, max-age=604800`; and in particular the Cache-Control
header of a `.js` asset differs from the one of `index.html`. -/
theorem c6_cache_control_policy :
    (∀ fp : List Char, endsWithL htmlExt fp = true →
        lookupHeader (setHeadersFor fp) ccKey = some noStoreCC)
    ∧ (∀ fp : List Char, (endsWithL jsExt fp || endsWithL cssExt fp) = true →
        lookupHeader (setHeadersFor fp) ccKey = some immutableCC)
    ∧ (∀ fp : List Char, (imageFontExts.any fun e => endsWithL e fp) = true →
        lookupHeader (setHeadersFor fp) ccKey = some mediumCC)
    ∧ lookupHeader (setHeadersFor ("/app/build/assets/main.js".data)) ccKey ≠
        lookupHeader (setHeadersFor ("/app/build/index.html".data)) ccKey := by
  refine ⟨?_, ?_, ?_, by decide⟩
  · intro fp h
    simp [setHeadersFor, h, lookupHeader]
  · intro fp h
    have hhtml : endsWithL htmlExt fp = false := by
      have h' : endsWithL jsExt fp = true ∨ endsWithL cssExt fp = true := by
        simpa using h
      rcases h' with hj | hc
      · exact endsWith_excl htmlExt jsExt (by decide) (by decide) fp hj
      · exact endsWith_excl htmlExt cssExt (by decide) (by decide) fp hc
    simp [setHeadersFor, hhtml, h, lookupHeader]
  · intro fp hm
    have hm' := hm
    simp only [imageFontExts, List.any_cons, List.any_nil, Bool.or_eq_true,
      Bool.or_false] at hm'
    rcases hm' with h | h | h | h | h | h | h | h | h | h <;>
      exact mediumBranch fp
        (endsWith_excl htmlExt _ (by decide) (by decide) fp h)
        (endsWith_excl jsExt _ (by decide) (by decide) fp h)
        (endsWith_excl cssExt _ (by decide) (by decide) fp h)
        hm

/-- Witness for C6 at a concrete HTML, JS and PNG file path. -/
theorem c6_cache_control_policy_witness :
    lookupHeader (setHeadersFor ("/app/build/index.html".data)) ccKey = some noStoreCC
    ∧ lookupHeader (setHeadersFor ("/app/build/assets/main.js".data)) ccKey =
        some immutableCC
    ∧ lookupHeader (setHeadersFor ("/app/build/logo.png".data)) ccKey = some mediumCC :=
  ⟨c6_cache_control_policy.1 ("/app/build/index.html".data) (by decide),
   c6_cache_control_policy.2.1 ("/app/build/assets/main.js".data) (by decide),
   c6_cache_control_policy.2.2.1 ("/app/build/logo.png".data) (by decide)⟩

lemma lookup_removeItem_self (s : List (List Char × List Char)) (k : List Char) :
    lookupHeader (removeItem s k) k = none := by
  induction s with
  | nil => rfl
  | cons e t ih =>
    obtain ⟨a, b⟩ := e
    by_cases he : a = k
    · simpa [removeItem, List.filter_cons, he] using ih
    · simpa [removeItem, List.filter_cons, he, lookupHeader] using ih

lemma lookup_removeItem_other (s : List (List Char × List Char)) (k key : List Char)
    (h : key ≠ k) :
    lookupHeader (removeItem s k) key = lookupHeader s key := by
  simp only [removeItem]
  exact lookup_filter_ne s k key h

lemma cleared_storage_lookup (sg : List (List Char × List Char)) :
    lookupHeader (removeItem (removeItem (removeItem sg ("access_token".data))
        ("refresh_token".data)) ("admin_role".data)) ("access_token".data) = none
    ∧ lookupHeader (removeItem (removeItem (removeItem sg ("access_token".data))
        ("refresh_token".data)) ("admin_role".data)) ("refresh_token".data) = none
    ∧ lookupHeader (removeItem (removeItem (removeItem sg ("access_token".data))
        ("refresh_token".data)) ("admin_role".data)) ("admin_role".data) = none := by
  refine ⟨?_, ?_, ?_⟩
  · rw [lookup_removeItem_other _ _ _ (by decide), lookup_removeItem_other _ _ _ (by decide)]
    exact lookup_removeItem_self _ _
  · rw [lookup_removeItem_other _ _ _ (by decide)]
    exact lookup_removeItem_self _ _
  · exact lookup_removeItem_self _ _

/-- C9: whatever the outcome of the token-revocation call (a response of
any status, or a thrown network error) and whatever the starting state,
`logout()` resolves (it never rejects), and in the resolved state both
in-memory tokens are `null`, the three persisted entries are gone, and
`isAuthenticated()` is `false`. -/
theorem c9_logout_always_clears (st : ApiState) (outcome : FetchOutcome) :
    ∃ st' : ApiState, logout st outcome = LogoutResult.resolved st'
    ∧ st'.accessToken = none
    ∧ st'.refreshToken = none
    ∧ lookupHeader st'.storage ("access_token".data) = none
    ∧ lookupHeader st'.storage ("refresh_token".data) = none
    ∧ lookupHeader st'.storage ("admin_role".data) = none
    ∧ isAuthenticated st' = false := by
  obtain ⟨tok, rtok, sg⟩ := st
  cases tok <;> cases outcome <;>
    exact ⟨_, rfl, rfl, rfl, (cleared_storage_lookup sg).1,
      (cleared_storage_lookup sg).2.1, (cleared_storage_lookup sg).2.2, rfl⟩
